import Mathlib

/-
Verification of the silx excerpt: the GPU byte-offset decompressor
(silx/opencl/codec/byte_offset.py), the plot-widget test harness
(silx/gui/plot/test/utils.py) and the median-filter conformance suite
(silx/image/test/test_medianfilter.py).

The Python code is shallowly embedded: pure computations become Lean
functions, the stateful decode pipeline becomes explicit state passing
producing a trace of device events, Python runtime errors (TypeError,
UnboundLocalError, NameError) become an error type in Except results.
Python integers are mathematical integers; the one place the code
converts to a 32-bit machine integer (numpy.int32(len(raw)) in dec) is
modelled with an explicit wrap-around at 2 to the 31st power, matching
numpy 1.x conversion semantics contemporary with the source.
-/

/-! ## Python runtime errors -/

/-- Errors a Python caller can observe from the embedded code:
`typeError` for unsupported operand types (e.g. comparing None with int),
`unboundLocal` for a local variable referenced before assignment, and
`nameError` for a name that is not defined at all. -/
inductive PyErr
  | typeError
  | unboundLocal (n : String)
  | nameError (n : String)
  deriving DecidableEq

/-! ## The padding formula of ByteOffset.__init__ (and of the growth branch of dec)

`padded = (size + wg - 1) & ~(wg - 1)`, evaluated with Python integer
semantics: `~x` is the two-complement negation `-x-1` and `&` is bitwise
AND on the infinite two-complement representations. `Int.lnot` and
`Int.land` from Mathlib implement exactly these semantics. -/

/-- The padding formula `(size + wg - 1) & ~(wg - 1)` from
`ByteOffset.__init__` (byte_offset.py lines 72-73) and from the growth
branch of `dec` (line 118), on Python integers. -/
def padd (size wg : ℤ) : ℤ := Int.land (size + wg - 1) (Int.lnot (wg - 1))

/-- Clearing the low `k` bits of `a` rounds `a` down to a multiple of `2 ^ k`. -/
theorem ldiff_two_pow_sub_one (a k : ℕ) :
    Nat.ldiff a (2 ^ k - 1) = a / 2 ^ k * 2 ^ k := by
  have h : Nat.ldiff a (2 ^ k - 1) = (a >>> k) <<< k := by
    apply Nat.eq_of_testBit_eq
    intro i
    rw [Nat.testBit_ldiff, Nat.testBit_two_pow_sub_one, Nat.testBit_shiftLeft,
      Nat.testBit_shiftRight]
    by_cases hk : k ≤ i
    · simp [hk, Nat.not_lt.mpr hk, Nat.add_sub_cancel' hk]
    · simp [hk, Nat.lt_of_not_le hk]
  rw [h, Nat.shiftLeft_eq, Nat.shiftRight_eq_div_pow]

/-- For a nonnegative `size` and a power-of-two `wg`, the bitwise padding
formula reduces to rounding `size + wg - 1` down to a multiple of `wg`. -/
theorem padd_eq_of_two_pow (size : ℤ) (k : ℕ) (hs : 0 ≤ size) :
    padd size (2 ^ k) =
      (((size + 2 ^ k - 1).toNat / 2 ^ k * 2 ^ k : ℕ) : ℤ) := by
  have h0 : (0 : ℤ) < 2 ^ k := pow_pos (by norm_num) k
  have hm : (0 : ℤ) ≤ size + 2 ^ k - 1 := by linarith
  have hW : (1 : ℕ) ≤ 2 ^ k := Nat.one_le_two_pow
  have h1 : (2 : ℤ) ^ k - 1 = ((2 ^ k - 1 : ℕ) : ℤ) := by push_cast [hW]; ring
  have h2 : size + 2 ^ k - 1 = (((size + 2 ^ k - 1).toNat : ℕ) : ℤ) :=
    (Int.toNat_of_nonneg hm).symm
  unfold padd
  conv_lhs => rw [h1, h2]
  show ((Nat.ldiff (size + 2 ^ k - 1).toNat (2 ^ k - 1) : ℕ) : ℤ) = _
  rw [ldiff_two_pow_sub_one]

/-- Claim C3: for every positive integer `size` and power-of-two `wg`, the
padded size `(size + wg - 1) & ~(wg - 1)` computed by the `ByteOffset`
constructor satisfies `size ≤ padded`, `wg ∣ padded` and `padded - size < wg`. -/
theorem byteOffset_padding_formula (size wg : ℤ) (hs : 0 < size)
    (hw : ∃ k : ℕ, wg = 2 ^ k) :
    size ≤ padd size wg ∧ wg ∣ padd size wg ∧ padd size wg - size < wg := by
  obtain ⟨k, rfl⟩ := hw
  have h0 : (0 : ℤ) < 2 ^ k := pow_pos (by norm_num) k
  have hm : (0 : ℤ) ≤ size + 2 ^ k - 1 := by linarith
  have hkey := padd_eq_of_two_pow size k (le_of_lt hs)
  set a : ℕ := (size + 2 ^ k - 1).toNat with ha
  set q : ℕ := a / 2 ^ k * 2 ^ k with hqdef
  have hWpos : 0 < 2 ^ k := Nat.two_pow_pos k
  have hq1 : q ≤ a := Nat.div_mul_le_self a (2 ^ k)
  have h3 : 2 ^ k * (a / 2 ^ k) = q := by rw [hqdef, Nat.mul_comm]
  have hq2 : a < q + 2 ^ k := by
    calc a = a % 2 ^ k + 2 ^ k * (a / 2 ^ k) := (Nat.mod_add_div a (2 ^ k)).symm
      _ = a % 2 ^ k + q := by rw [h3]
      _ < 2 ^ k + q := Nat.add_lt_add_right (Nat.mod_lt a hWpos) q
      _ = q + 2 ^ k := Nat.add_comm _ _
  have hq1z : ((q : ℕ) : ℤ) ≤ ((a : ℕ) : ℤ) := Int.ofNat_le.mpr hq1
  have hq2z : ((a : ℕ) : ℤ) < ((q : ℕ) : ℤ) + ((2 ^ k : ℕ) : ℤ) := by
    exact_mod_cast hq2
  have haz : ((a : ℕ) : ℤ) = size + 2 ^ k - 1 := Int.toNat_of_nonneg hm
  have hWz : ((2 ^ k : ℕ) : ℤ) = (2 : ℤ) ^ k := by push_cast; ring
  have hq2z' : ((a : ℕ) : ℤ) + 1 ≤ ((q : ℕ) : ℤ) + ((2 ^ k : ℕ) : ℤ) :=
    Int.lt_iff_add_one_le.mp hq2z
  refine ⟨?_, ?_, ?_⟩
  · rw [hkey]
    linarith [hq2z', haz, hWz]
  · rw [hkey]
    have hd : (2 ^ k : ℕ) ∣ q := ⟨a / 2 ^ k, by rw [hqdef, Nat.mul_comm]⟩
    have hd2 : ((2 ^ k : ℕ) : ℤ) ∣ ((q : ℕ) : ℤ) := Int.natCast_dvd_natCast.mpr hd
    rwa [hWz] at hd2
  · rw [hkey]
    linarith [hq1z, haz, hWz]

/-- Witness for C3 at `size = 5`, `wg = 4`. -/
theorem byteOffset_padding_formula_witness :
    (0 : ℤ) < 5 ∧ (∃ k : ℕ, (4 : ℤ) = 2 ^ k) ∧
      (5 ≤ padd 5 4 ∧ (4 : ℤ) ∣ padd 5 4 ∧ padd 5 4 - 5 < 4) :=
  ⟨by norm_num, ⟨2, by norm_num⟩,
    byteOffset_padding_formula 5 4 (by norm_num) ⟨2, by norm_num⟩⟩

/-! ## The int32 conversion applied by dec

`dec` begins with `len_raw = numpy.int32(len(raw))` (line 106). Converting
an out-of-range Python int to numpy.int32 wraps modulo 2 to the 32nd power
(numpy 1.x semantics, contemporary with the source). -/

/-- Conversion of a nonnegative Python int to a numpy.int32 value,
wrapping into the interval from -2^31 to 2^31 - 1. -/
def toInt32 (n : ℕ) : ℤ := (((n + 2 ^ 31) % 2 ^ 32 : ℕ) : ℤ) - 2 ^ 31

theorem toInt32_le (n : ℕ) : toInt32 n ≤ (n : ℤ) := by
  unfold toInt32
  have h := Nat.mod_le (n + 2 ^ 31) (2 ^ 32)
  omega

theorem toInt32_of_lt (n : ℕ) (h : n < 2 ^ 31) : toInt32 n = (n : ℤ) := by
  unfold toInt32
  have h2 : n + 2 ^ 31 < 2 ^ 32 := by omega
  rw [Nat.mod_eq_of_lt h2]
  omega

/-! ## ByteOffset construction (byte_offset.py lines 57-85)

Device buffers are modelled by their allocated capacities (in elements);
buffer contents are not computed by the excerpt except for the counter
cell, whose content is tracked explicitly (field counter0). -/

/-- The device-side state owned by a `ByteOffset` instance: the effective
work-group size, the stored raw and decompressed sizes, the two padded
sizes, the capacities of the seven device buffers, and the content of the
single-cell counter buffer. -/
structure ByteOffsetState where
  block_size : ℕ
  raw_size : ℤ
  dec_size : ℤ
  padded_raw_size : ℤ
  padded_dec_size : ℤ
  buf_raw : ℕ
  buf_mask : ℕ
  buf_values : ℕ
  buf_exceptions : ℕ
  buf_counter : ℕ
  buf_data_float : ℕ
  buf_data_int : ℕ
  counter0 : ℤ
  deriving DecidableEq

/-- Python 3 `min(block_size, 128)` where `block_size` may be `None` (the
constructor default): comparing `None` with an int raises TypeError, so
`min` only produces a value for integer hints. -/
def pyMin128 (hint : Option ℤ) : Except PyErr ℤ :=
  match hint with
  | none => Except.error PyErr.typeError
  | some b => Except.ok (min b 128)

/-- The block-size computation of `ByteOffset.__init__` (line 68):
`block_size=min(block_size, 128)` with default `block_size=None`. -/
def effectiveBlockSize (hint : Option ℤ) : Except PyErr ℤ := pyMin128 hint

/-- `ByteOffset.__init__` (lines 69-83) for an already-resolved effective
block size `bs`: stores `numpy.int32` raw and decompressed sizes, computes
both padded sizes with the padding formula, and allocates the seven device
buffers (`raw`, `mask`, `values`, `exceptions` of length raw_size,
`counter` of length 1, `data_float`, `data_int` of length dec_size).
Freshly allocated device memory is uninitialized; the model sets the
never-read-before-write counter cell to the placeholder 0. -/
def mkByteOffset (raw_size dec_size bs : ℕ) : ByteOffsetState where
  block_size := bs
  raw_size := toInt32 raw_size
  dec_size := toInt32 dec_size
  padded_raw_size := padd (toInt32 raw_size) (bs : ℤ)
  padded_dec_size := padd (toInt32 dec_size) (bs : ℤ)
  buf_raw := raw_size
  buf_mask := raw_size
  buf_values := raw_size
  buf_exceptions := raw_size
  buf_counter := 1
  buf_data_float := dec_size
  buf_data_int := dec_size
  counter0 := 0

/-- The full constructor: resolve the block-size hint with
`min(block_size, 128)` (line 68), then build the instance state. -/
def mkByteOffsetFull (raw_size dec_size : ℕ) (hint : Option ℤ) :
    Except PyErr ByteOffsetState :=
  (effectiveBlockSize hint).map (fun bs => mkByteOffset raw_size dec_size bs.toNat)

/-! ## The dynamic-growth prefix of dec (byte_offset.py lines 106-119)

If `numpy.int32(len(raw)) > self.raw_size`, the `raw`, `mask`,
`exceptions` and `values` buffers are reallocated to `len(raw)` elements,
`self.raw_size` is set to the Python int `len(raw)` and
`self.padded_raw_size` is recomputed; nothing else changes. -/

/-- The growth branch of `dec`: executed state change of lines 106-119. -/
def decGrow (s : ByteOffsetState) (len : ℕ) : ByteOffsetState :=
  if s.raw_size < toInt32 len then
    { s with
        buf_raw := len
        buf_mask := len
        buf_exceptions := len
        buf_values := len
        raw_size := (len : ℤ)
        padded_raw_size := padd (len : ℤ) (s.block_size : ℤ) }
  else s

/-! ## The device kernels reachable from dec

Only the launch geometry and arguments are visible in the excerpt; the
kernel source `codec/byte_offset.cl` is not included. -/

/-- Modelled from the spec: the `fill_int_mem` device kernel (its OpenCL
source is not part of the excerpt). The spec describes the launches of
this kernel as filling: the mask launch, with arguments
`(mask, raw_size, 0, 0)`, zeroes the first `raw_size` entries of `mask`,
which fixes the argument meaning as `(mem, size, value, start)`: every
work item `gid` with `start ≤ gid < size` writes `value` into `mem[gid]`. -/
def fill_int_mem (global_size : ℕ) (mem : List ℤ) (size value start : ℤ) :
    List ℤ :=
  mem.enum.map (fun p =>
    if (p.1 : ℤ) < (global_size : ℤ) ∧ start ≤ (p.1 : ℤ) ∧ (p.1 : ℤ) < size
    then value else p.2)

/-- The counter initialization of `dec` (lines 133-137): `fill_int_mem`
launched with global size 1, local size 1 and arguments
`(counter, 1, 0, 0)` on the single-cell counter buffer. -/
def memsetCounter (c : ℤ) : ℤ := (fill_int_mem 1 [c] 1 0 0).getD 0 c

/-- A device operation recorded in the event list of one `dec` call:
either an enqueued copy or a kernel launch with its global and local
work sizes. -/
inductive Ev
  | copy (label : String)
  | launch (label : String) (glob : ℤ) (loc : ℕ)
  deriving DecidableEq

/-- Element type of a caller-supplied output buffer. -/
inductive OutDType
  | float32
  | int32
  deriving DecidableEq

/-- Which output buffer `dec` would return (lines 185-196). -/
inductive OutChoice
  | supplied (d : OutDType)
  | dataFloat
  | dataInt
  deriving DecidableEq

/-- Which copy kernel `dec` selects for the final gather (lines 185-196). -/
inductive CopyKernel
  | float
  | int
  deriving DecidableEq

/-- Output selection of `dec` (lines 185-196): a supplied buffer picks the
copy kernel from its dtype; otherwise `as_float` picks the internal
`data_float` or `data_int` buffer and the matching kernel. -/
def chooseOut (out : Option OutDType) (as_float : Bool) :
    OutChoice × CopyKernel :=
  match out with
  | some OutDType.float32 => (OutChoice.supplied OutDType.float32, CopyKernel.float)
  | some OutDType.int32 => (OutChoice.supplied OutDType.int32, CopyKernel.int)
  | none =>
      if as_float then (OutChoice.dataFloat, CopyKernel.float)
      else (OutChoice.dataInt, CopyKernel.int)

deriving instance DecidableEq for Except

/-- Result of one `dec` call: the recorded event list, the instance state
after the call (Python state mutations persist when the call raises), the
result (the returned buffer, or the Python error that aborted the call),
and the output choice reached before the failure, if any. -/
structure DecOutcome where
  events : List Ev
  state : ByteOffsetState
  result : Except PyErr OutChoice
  chosen : Option (OutChoice × CopyKernel)
  deriving DecidableEq

/-- `ByteOffset.dec` (byte_offset.py lines 101-208), embedded as executed.

The local variable `wg` is assigned only inside the growth branch (line
117). When the branch is not taken, evaluating the arguments of the
mask-fill launch (line 126) raises UnboundLocalError on `wg` after the
raw host-to-device copy was enqueued. When the branch is taken, the
pipeline proceeds: mask fill, counter fill, `mark_exceptions` (spec says
it atomically increments the counter once per escape position found,
modelled by the oracle `nbexc` since the kernel source is absent),
counter read-back, `treat_exceptions` with that many work items, output
selection - and then the launch of the copy kernel (line 199) evaluates
the name `cumsummed_d`, which is assigned nowhere in the function (the
scan invocation only survives in comments, lines 163-184), raising
NameError. In both paths `dec` never returns. -/
def decRun (s : ByteOffsetState) (len nbexc : ℕ) (as_float : Bool)
    (out : Option OutDType) : DecOutcome :=
  let s1 := decGrow s len
  if s.raw_size < toInt32 len then
    let wg := s.block_size
    let pad := s1.padded_raw_size
    let cAfterMemset := memsetCounter s.counter0
    let cAfterMark := cAfterMemset + (nbexc : ℤ)
    let sFinal := { s1 with counter0 := cAfterMark }
    DecOutcome.mk
      [Ev.copy "copy raw H -> D",
       Ev.launch "memset mask" pad wg,
       Ev.launch "memset counter" 1 1,
       Ev.launch "mark exceptions" pad wg,
       Ev.copy "copy counter D -> H",
       Ev.launch "treat_exceptions" cAfterMark 1]
      sFinal
      (Except.error (PyErr.nameError "cumsummed_d"))
      (some (chooseOut out as_float))
  else
    DecOutcome.mk
      [Ev.copy "copy raw H -> D"]
      s1
      (Except.error (PyErr.unboundLocal "wg"))
      none

/-! ## The lazily-built double-scan kernel (_init_double_scan, lines 87-99) -/

/-- Which scan implementation class is instantiated. -/
inductive ScanVariant
  | parallel
  | debug
  deriving DecidableEq

/-- The configuration of a generic prefix-scan kernel over int2 records:
per-element transform (from mask and value entries), combining operator,
neutral element, per-position output statement (updating the value and
index arrays), and the chosen implementation variant. -/
structure ScanKernelSpec where
  transform : ℤ → ℤ → ℤ × ℤ
  combine : ℤ × ℤ → ℤ × ℤ → ℤ × ℤ
  neutral : ℤ × ℤ
  writeOut : ℕ → ℤ × ℤ → List ℤ → List ℤ → List ℤ × List ℤ
  variant : ScanVariant

/-- `_init_double_scan` (byte_offset.py lines 87-99), transcribed from the
kernel-construction arguments:
input_expr is the C expression choosing `(0, 0)` when `mask[i]` is nonzero
(C truthiness) and `(value[i], 1)` otherwise; scan_expr `a+b` is
componentwise int2 addition; neutral is `(int2)(0,0)`; output_statement
writes `item.s0` to `value[i]` and `item.s1` to `index[i+1]`; the class is
GenericScanKernel when `self.block_size >= 64` and GenericDebugScanKernel
otherwise. -/
def init_double_scan (block_size : ℕ) : ScanKernelSpec where
  transform := fun m v => if m ≠ 0 then (0, 0) else (v, 1)
  combine := fun a b => (a.1 + b.1, a.2 + b.2)
  neutral := (0, 0)
  writeOut := fun i item value index => (value.set i item.1, index.set (i + 1) item.2)
  variant := if 64 ≤ block_size then ScanVariant.parallel else ScanVariant.debug

/-- Stated from the spec sentences: the transform of element `i`
contributes `(0, 0)` when `mask[i]` is set and `(value[i], 1)` otherwise;
combining is element-wise addition; the neutral element is `(0, 0)`; the
scan writes its first component into `value[i]` and its second component
into `index[i+1]`; the parallel variant is used when the work-group size
is at least 64 and the single-threaded debug variant below that. -/
def specDoubleScanKernel (block_size : ℕ) : ScanKernelSpec where
  transform := fun m v => if m = 0 then (v, 1) else (0, 0)
  combine := fun a b => (a.1 + b.1, a.2 + b.2)
  neutral := (0, 0)
  writeOut := fun i item value index => (value.set i item.1, index.set (i + 1) item.2)
  variant := if block_size < 64 then ScanVariant.debug else ScanVariant.parallel

/-! ## The plot-widget test harness (silx/gui/plot/test/utils.py)

The teardown path is embedded as the sequence of GUI actions it performs.
The liveness flag is an oracle `alive : ℕ → Bool` giving the value of
`self.plotAlive` observed at the k-th check of the poll loop (the flag is
flipped asynchronously by the destroyed signal during event processing). -/

/-- One observable action of the harness teardown. -/
inductive QtAction
  | processEvents
  | setDeleteOnClose
  | connectDestroyed
  | closeWidget
  | delPlot
  | checkAlive (alive : Bool)
  | qWait (ms : ℕ)
  | logError (msg : String)
  | superTearDown
  deriving DecidableEq

/-- The poll loop of `_waitForPlotClosed` (utils.py lines 73-78):
`for _ in range(100): if not self.plotAlive: break; self.qWait(10)` with a
for-else clause logging "Plot is still alive" when the loop exhausts
without a break. `fuel` is the number of remaining iterations and `k` the
index of the next check. -/
def pollLoop (alive : ℕ → Bool) : ℕ → ℕ → List QtAction
  | 0, _ => [QtAction.logError "Plot is still alive"]
  | fuel + 1, k =>
      QtAction.checkAlive (alive k) ::
        (if alive k then QtAction.qWait 10 :: pollLoop alive fuel (k + 1) else [])

/-- `_waitForPlotClosed` (utils.py lines 68-78): mark the widget
delete-on-close, connect the destroyed callback, close, drop the local
reference, then run the poll loop with a budget of 100 checks. -/
def waitForPlotClosed (alive : ℕ → Bool) : List QtAction :=
  [QtAction.setDeleteOnClose, QtAction.connectDestroyed, QtAction.closeWidget,
    QtAction.delPlot] ++ pollLoop alive 100 0

/-- `tearDown` (utils.py lines 80-83): flush pending events, wait for the
plot to close, then call the superclass teardown. The function is total:
no path raises, so teardown always completes. -/
def tearDownTrace (alive : ℕ → Bool) : List QtAction :=
  QtAction.processEvents :: (waitForPlotClosed alive ++ [QtAction.superTearDown])

/-! ## The 2-D median filter entry point (silx/image/test/test_medianfilter.py)

Modelled from the spec: `silx.image.medianfilter.medfilt2d` itself is not
part of the excerpt (only its conformance test is), so the filter is
modelled from the spec description: each output pixel is the median of
the kernel-sized window centred on it, the named engines compute the
same mathematical filter (the suite asserts they are bit-identical), and
the conditional flag in the exercised mode is false. Border handling is
unspecified in the excerpt; nearest-pixel clamping is used, which is
irrelevant for the degenerate 1x1 kernel of the claims. -/

/-- Backend selector of `medfilt2d`. -/
inductive MedianEngine
  | cpp
  | opencl
  deriving DecidableEq

/-- Median of a list of values (middle element of the sorted list). -/
def medianOfList (l : List ℤ) : ℤ :=
  (List.insertionSort (fun a b => a ≤ b) l).getD (l.length / 2) 0

/-- Clamp a (possibly negative) window coordinate to a valid index. -/
def borderClamp (n : ℕ) (r : ℤ) : ℕ := (max 0 (min r ((n : ℤ) - 1))).toNat

/-- The kernel-sized window of pixels centred on `(i, j)`. -/
def window (img : List (List ℤ)) (kh kw i j : ℕ) : List ℤ :=
  ((List.range kh).map (fun (di : ℕ) =>
    (List.range kw).map (fun (dj : ℕ) =>
      let r := borderClamp img.length ((i : ℤ) + (di : ℤ) - ((kh / 2 : ℕ) : ℤ))
      let row := img.getD r []
      let c := borderClamp row.length ((j : ℤ) + (dj : ℤ) - ((kw / 2 : ℕ) : ℤ))
      row.getD c 0))).flatten

/-- Modelled from the spec: the engine-independent 2-D median filter
computation (each output pixel is the median of its window). -/
def medfiltCore (image : List (List ℤ)) (kernel_size : ℕ × ℕ) :
    List (List ℤ) :=
  (List.range image.length).map (fun i =>
    (List.range (image.getD i []).length).map (fun j =>
      medianOfList (window image kernel_size.1 kernel_size.2 i j)))

/-- Modelled from the spec: `medianfilter.medfilt2d(image, kernel_size,
conditional, engine)`; the "cpp" and "opencl" backends compute the same
filter (the conformance suite asserts exact agreement), and the
conditional flag is false in the exercised mode. -/
def medfilt2d (image : List (List ℤ)) (kernel_size : ℕ × ℕ)
    (conditional : Bool) (engine : MedianEngine) : List (List ℤ) :=
  match engine, conditional with
  | MedianEngine.cpp, _ => medfiltCore image kernel_size
  | MedianEngine.opencl, _ => medfiltCore image kernel_size

/-! ## Theorems: the decompressor claims -/

theorem decGrow_raw_size_le (s : ByteOffsetState) (len : ℕ) :
    s.raw_size ≤ (decGrow s len).raw_size := by
  unfold decGrow
  split
  · rename_i h
    show s.raw_size ≤ (len : ℤ)
    exact le_trans (le_of_lt h) (toInt32_le len)
  · exact le_refl _

theorem foldl_decGrow_raw_size_le (s : ByteOffsetState) (lens : List ℕ) :
    s.raw_size ≤ (lens.foldl decGrow s).raw_size := by
  induction lens generalizing s with
  | nil => exact le_refl _
  | cons l t ih =>
      rw [List.foldl_cons]
      exact le_trans (decGrow_raw_size_le s l) (ih (decGrow s l))

/-- Claim C6 (amended): across any sequence of dec calls the raw capacity
never decreases; a stream whose length is at most the current raw_size
triggers no reallocation; and reallocation happens exactly when the
int32-converted stream length strictly exceeds the current raw_size (for
streams shorter than 2^31 the conversion is the identity, so this is
"strictly longer than the capacity"; at length 2^31 and beyond the
conversion wraps and the growth branch can be skipped). -/
theorem byteOffset_raw_size_monotone (s : ByteOffsetState) (lens : List ℕ)
    (len : ℕ) :
    s.raw_size ≤ (lens.foldl decGrow s).raw_size
    ∧ ((len : ℤ) ≤ s.raw_size → decGrow s len = s)
    ∧ (toInt32 len ≤ s.raw_size ↔ decGrow s len = s)
    ∧ (s.raw_size < toInt32 len → (decGrow s len).raw_size = (len : ℤ)) := by
  refine ⟨foldl_decGrow_raw_size_le s lens, ?_, ⟨?_, ?_⟩, ?_⟩
  · intro h
    have hc : ¬ s.raw_size < toInt32 len :=
      not_lt.mpr (le_trans (toInt32_le len) h)
    simp [decGrow, hc]
  · intro h
    simp [decGrow, not_lt.mpr h]
  · intro h
    by_contra hcon
    rw [not_le] at hcon
    have h2 : (decGrow s len).raw_size = (len : ℤ) := by simp [decGrow, hcon]
    rw [h] at h2
    have h3 := toInt32_le len
    linarith [hcon, h2, h3]
  · intro h
    simp [decGrow, h]

/-- State of an instance constructed as `ByteOffset(raw_size=50, dec_size=10)`
with an effective block size of 8. -/
def sC6 : ByteOffsetState := mkByteOffset 50 10 8

/-- Counterexample to C6 as stated: a raw stream of length 2^31 is
strictly longer than the capacity 50, yet `numpy.int32(2 ** 31)` wraps to
-2^31, the growth branch is skipped, and no reallocation happens. -/
theorem byteOffset_raw_size_monotone_cex :
    sC6.raw_size < ((2 ^ 31 : ℕ) : ℤ) ∧ decGrow sC6 (2 ^ 31) = sC6 := by
  constructor
  · decide
  · have h : ¬ sC6.raw_size < toInt32 (2 ^ 31) := by decide
    unfold decGrow
    exact if_neg h

/-- Claim C5 (amended): for every dec call whose raw stream length, after
the int32 conversion of line 106, strictly exceeds the stored raw_size,
exactly the raw, mask, exceptions and values capacities become the new
length, raw_size and padded_raw_size are updated, and the counter,
data_float and data_int capacities, dec_size and padded_dec_size (and the
block size and counter content) are unchanged. -/
theorem byteOffset_growth_frame (s : ByteOffsetState) (len : ℕ)
    (h : s.raw_size < toInt32 len) :
    (decGrow s len).buf_raw = len ∧ (decGrow s len).buf_mask = len ∧
    (decGrow s len).buf_exceptions = len ∧ (decGrow s len).buf_values = len ∧
    (decGrow s len).raw_size = (len : ℤ) ∧
    (decGrow s len).padded_raw_size = padd (len : ℤ) (s.block_size : ℤ) ∧
    (decGrow s len).buf_counter = s.buf_counter ∧
    (decGrow s len).buf_data_float = s.buf_data_float ∧
    (decGrow s len).buf_data_int = s.buf_data_int ∧
    (decGrow s len).dec_size = s.dec_size ∧
    (decGrow s len).padded_dec_size = s.padded_dec_size ∧
    (decGrow s len).block_size = s.block_size ∧
    (decGrow s len).counter0 = s.counter0 := by
  simp [decGrow, h]

/-- State of an instance constructed as `ByteOffset(raw_size=4, dec_size=4)`
with an effective block size of 8. -/
def sC5w : ByteOffsetState := mkByteOffset 4 4 8

/-- Witness for the amended C5 at a stream of length 10 against capacity 4. -/
theorem byteOffset_growth_frame_witness :
    sC5w.raw_size < toInt32 10 ∧
      ((decGrow sC5w 10).buf_raw = 10 ∧ (decGrow sC5w 10).buf_mask = 10 ∧
      (decGrow sC5w 10).buf_exceptions = 10 ∧ (decGrow sC5w 10).buf_values = 10 ∧
      (decGrow sC5w 10).raw_size = ((10 : ℕ) : ℤ) ∧
      (decGrow sC5w 10).padded_raw_size = padd ((10 : ℕ) : ℤ) (sC5w.block_size : ℤ) ∧
      (decGrow sC5w 10).buf_counter = sC5w.buf_counter ∧
      (decGrow sC5w 10).buf_data_float = sC5w.buf_data_float ∧
      (decGrow sC5w 10).buf_data_int = sC5w.buf_data_int ∧
      (decGrow sC5w 10).dec_size = sC5w.dec_size ∧
      (decGrow sC5w 10).padded_dec_size = sC5w.padded_dec_size ∧
      (decGrow sC5w 10).block_size = sC5w.block_size ∧
      (decGrow sC5w 10).counter0 = sC5w.counter0) :=
  ⟨by decide, byteOffset_growth_frame sC5w 10 (by decide)⟩

/-- State of an instance constructed as `ByteOffset(raw_size=100, dec_size=20)`
with an effective block size of 16. -/
def sC5 : ByteOffsetState := mkByteOffset 100 20 16

/-- Counterexample to C5 as stated: a raw stream of length 2^31 + 5
strictly exceeds the capacity 100, yet `numpy.int32(2 ** 31 + 5)` wraps to
a negative value, the growth branch is skipped, and none of the described
reallocations or size updates happen. -/
theorem byteOffset_growth_cex :
    sC5.raw_size < ((2 ^ 31 + 5 : ℕ) : ℤ) ∧ decGrow sC5 (2 ^ 31 + 5) = sC5 := by
  constructor
  · decide
  · have h : ¬ sC5.raw_size < toInt32 (2 ^ 31 + 5) := by decide
    unfold decGrow
    exact if_neg h

/-- Claim C2: whenever the raw stream length is at most the stored
raw_size, the growth branch is skipped, the local `wg` is never assigned,
and dec aborts with UnboundLocalError when evaluating the arguments of
the mask-fill launch: the only recorded event is the raw host-to-device
copy, and the mask-initialization kernel is never launched. -/
theorem byteOffset_dec_wg_unbound (s : ByteOffsetState) (len nbexc : ℕ)
    (af : Bool) (out : Option OutDType) (h : (len : ℤ) ≤ s.raw_size) :
    (decRun s len nbexc af out).result = Except.error (PyErr.unboundLocal "wg")
    ∧ (decRun s len nbexc af out).events = [Ev.copy "copy raw H -> D"] := by
  have hc : ¬ s.raw_size < toInt32 len :=
    not_lt.mpr (le_trans (toInt32_le len) h)
  constructor
  · simp [decRun, hc]
  · simp [decRun, hc]

/-- State of an instance constructed as `ByteOffset(raw_size=8, dec_size=4)`
with an effective block size of 8. -/
def sC2 : ByteOffsetState := mkByteOffset 8 4 8

/-- Witness for C2: a stream of length 5 against capacity 8. -/
theorem byteOffset_dec_wg_unbound_witness :
    ((5 : ℕ) : ℤ) ≤ sC2.raw_size ∧
      ((decRun sC2 5 0 false none).result = Except.error (PyErr.unboundLocal "wg")
       ∧ (decRun sC2 5 0 false none).events = [Ev.copy "copy raw H -> D"]) :=
  ⟨by decide, byteOffset_dec_wg_unbound sC2 5 0 false none (by decide)⟩

theorem memsetCounter_eq_zero (c : ℤ) : memsetCounter c = 0 := rfl

/-- Claim C7 (amended): in every dec call that reaches the kernel pipeline
(the growth branch, which binds wg), the counter cell is set to 0 - not
1 - by the fill launch with global and local size 1 recorded as
"memset counter", which precedes the "mark exceptions" launch; the
counter content after the call is exactly the number of exceptions found
by the marking kernel, confirming the 0 start. -/
theorem byteOffset_memset_counter_zero (s : ByteOffsetState) (len nbexc : ℕ)
    (af : Bool) (out : Option OutDType) (h : s.raw_size < toInt32 len) :
    (decRun s len nbexc af out).events.get? 2
        = some (Ev.launch "memset counter" 1 1)
    ∧ (decRun s len nbexc af out).events.get? 3
        = some (Ev.launch "mark exceptions"
            (decGrow s len).padded_raw_size s.block_size)
    ∧ (∀ c : ℤ, memsetCounter c = 0)
    ∧ (decRun s len nbexc af out).state.counter0 = (nbexc : ℤ) := by
  refine ⟨?_, ?_, memsetCounter_eq_zero, ?_⟩
  · simp [decRun, h]
  · simp [decRun, h]
  · simp [decRun, h, memsetCounter_eq_zero]

/-- State of an instance constructed as `ByteOffset(raw_size=2, dec_size=4)`
with an effective block size of 8. -/
def sC7w : ByteOffsetState := mkByteOffset 2 4 8

/-- Witness for the amended C7: a growing call with 3 exceptions found. -/
theorem byteOffset_memset_counter_zero_witness :
    sC7w.raw_size < toInt32 6 ∧
      ((decRun sC7w 6 3 false none).events.get? 2
          = some (Ev.launch "memset counter" 1 1)
      ∧ (decRun sC7w 6 3 false none).events.get? 3
          = some (Ev.launch "mark exceptions"
              (decGrow sC7w 6).padded_raw_size sC7w.block_size)
      ∧ (∀ c : ℤ, memsetCounter c = 0)
      ∧ (decRun sC7w 6 3 false none).state.counter0 = ((3 : ℕ) : ℤ)) :=
  ⟨by decide, byteOffset_memset_counter_zero sC7w 6 3 false none (by decide)⟩

/-- State of an instance constructed as `ByteOffset(raw_size=4, dec_size=4)`
with an effective block size of 8 (distinct from sC5w for claim C7). -/
def sC7 : ByteOffsetState := mkByteOffset 4 4 8

/-- Counterexample to C7 as stated: the fill launch recorded as
"memset counter" passes arguments (counter, 1, 0, 0), which under the
fill semantics fixed by the spec mask-zeroing sentence write 0 - not 1 -
into the counter cell; in a concrete growing dec call that finds no
exception the counter afterwards holds 0. -/
theorem byteOffset_memset_counter_cex :
    memsetCounter 5 = 0 ∧ memsetCounter 5 ≠ 1 ∧
      (decRun sC7 6 0 false none).state.counter0 = 0 := by
  refine ⟨rfl, by decide, by decide⟩

/-- State of an instance constructed as `ByteOffset(raw_size=1, dec_size=4)`
with an effective block size of 8. -/
def sC1 : ByteOffsetState := mkByteOffset 1 4 8

/-- Claim C1 (code bug): evaluating dec at a concrete call (a 2-byte
stream against capacity 1, so the growth branch binds wg and the pipeline
runs) shows the recorded events stop at treat_exceptions: no scan kernel
is ever invoked, the copy/gather kernel is never launched, and the call
aborts with NameError on the never-assigned `cumsummed_d` instead of
returning the chosen output buffer. -/
theorem byteOffset_dec_missing_scan :
    (decRun sC1 2 0 false none).result = Except.error (PyErr.nameError "cumsummed_d")
    ∧ (decRun sC1 2 0 false none).events =
        [Ev.copy "copy raw H -> D",
         Ev.launch "memset mask" (padd 2 8) 8,
         Ev.launch "memset counter" 1 1,
         Ev.launch "mark exceptions" (padd 2 8) 8,
         Ev.copy "copy counter D -> H",
         Ev.launch "treat_exceptions" 0 1] := by
  constructor
  · rfl
  · rfl

/-- Counterexample to C4 as stated: with the default hint None the
constructor computes min(None, 128), which raises TypeError; no effective
block size is produced at all. -/
theorem byteOffset_block_size_none_cex :
    effectiveBlockSize none = Except.error PyErr.typeError ∧
      mkByteOffsetFull 64 64 none = Except.error PyErr.typeError :=
  ⟨rfl, rfl⟩

/-- Claim C4 (amended): for every integer hint b the effective block size
is min(b, 128), and the constructed instance stores it; the default hint
None is not clamped but makes the constructor raise TypeError. -/
theorem byteOffset_block_size_clamp (b : ℤ) (rawSize decSize : ℕ) :
    effectiveBlockSize (some b) = Except.ok (min b 128)
    ∧ (mkByteOffsetFull rawSize decSize (some b)).map (fun st => st.block_size)
        = Except.ok (min b 128).toNat
    ∧ effectiveBlockSize none = Except.error PyErr.typeError
    ∧ mkByteOffsetFull rawSize decSize none = Except.error PyErr.typeError :=
  ⟨rfl, rfl, rfl, rfl⟩

/-! ## Theorems: the double-scan kernel claim -/

/-- Claim C8: for every block size, the double-scan kernel built by
`_init_double_scan` coincides with the spec description of its transform
(masked positions contribute (0,0), others (value, 1)), its element-wise
addition combine operator, its neutral element (0,0), its output
statement (first component to value at i, second component to index at
i+1), and its variant choice; in particular the parallel variant is
instantiated exactly when the block size is at least 64. -/
theorem double_scan_matches_spec (bs : ℕ) :
    init_double_scan bs = specDoubleScanKernel bs ∧
      ((init_double_scan bs).variant = ScanVariant.parallel ↔ 64 ≤ bs) := by
  constructor
  · unfold init_double_scan specDoubleScanKernel
    rw [ScanKernelSpec.mk.injEq]
    refine ⟨?_, rfl, rfl, rfl, ?_⟩
    · funext m v
      by_cases h : m = 0
      · simp [h]
      · simp [h]
    · by_cases h : 64 ≤ bs
      · rw [if_pos h, if_neg (not_lt.mpr h)]
      · rw [if_neg h, if_pos (lt_of_not_le h)]
  · unfold init_double_scan
    by_cases h : 64 ≤ bs
    · simp [h]
    · simp [h]

/-! ## Theorems: the plot-widget teardown claim -/

/-- Recognizer for the liveness checks of the poll loop. -/
def isCheck : QtAction → Bool
  | QtAction.checkAlive _ => true
  | _ => false

theorem pollLoop_countP_le (alive : ℕ → Bool) (fuel k : ℕ) :
    (pollLoop alive fuel k).countP isCheck ≤ fuel := by
  induction fuel generalizing k with
  | zero => simp [pollLoop, List.countP_cons, isCheck]
  | succ n ih =>
      by_cases h : alive k
      · have := ih (k + 1)
        simp [pollLoop, h, List.countP_cons, isCheck]
        omega
      · simp [pollLoop, h, List.countP_cons, isCheck]

theorem pollLoop_qWait (alive : ℕ → Bool) (fuel k ms : ℕ)
    (h : QtAction.qWait ms ∈ pollLoop alive fuel k) : ms = 10 := by
  induction fuel generalizing k with
  | zero => simp [pollLoop] at h
  | succ n ih =>
      by_cases ha : alive k
      · rw [pollLoop, if_pos ha] at h
        simp only [List.mem_cons] at h
        rcases h with h | h | h
        · exact absurd h (by simp)
        · simpa using h
        · exact ih (k + 1) h
      · rw [pollLoop, if_neg ha] at h
        simp at h

theorem pollLoop_exhaust (alive : ℕ → Bool) (fuel k : ℕ)
    (h : ∀ j, j < fuel → alive (k + j) = true) :
    (pollLoop alive fuel k).countP isCheck = fuel ∧
      QtAction.logError "Plot is still alive" ∈ pollLoop alive fuel k := by
  induction fuel generalizing k with
  | zero => simp [pollLoop, List.countP_cons, isCheck]
  | succ n ih =>
      have hk : alive k = true := by
        have := h 0 (Nat.succ_pos n)
        simpa using this
      have h2 : ∀ j, j < n → alive (k + 1 + j) = true := by
        intro j hj
        have e : k + 1 + j = k + (j + 1) := by omega
        rw [e]
        exact h (j + 1) (by omega)
      obtain ⟨ihc, ihm⟩ := ih (k + 1) h2
      constructor
      · simp [pollLoop, hk, List.countP_cons, isCheck, ihc]
      · simp [pollLoop, hk, ihm]

theorem pollLoop_break (alive : ℕ → Bool) (m : ℕ) :
    ∀ fuel k, m < fuel → alive (k + m) = false →
      (∀ j, j < m → alive (k + j) = true) →
      (pollLoop alive fuel k).countP isCheck = m + 1 ∧
        QtAction.logError "Plot is still alive" ∉ pollLoop alive fuel k := by
  induction m with
  | zero =>
      intro fuel k hm hf _
      obtain ⟨n, rfl⟩ : ∃ n, fuel = n + 1 := ⟨fuel - 1, by omega⟩
      have hk : alive k = false := by simpa using hf
      constructor
      · simp [pollLoop, hk, List.countP_cons, isCheck]
      · simp [pollLoop, hk]
  | succ m ih =>
      intro fuel k hm hf ha
      obtain ⟨n, rfl⟩ : ∃ n, fuel = n + 1 := ⟨fuel - 1, by omega⟩
      have hk : alive k = true := by
        have := ha 0 (Nat.succ_pos m)
        simpa using this
      have h2 : alive (k + 1 + m) = false := by
        have e : k + 1 + m = k + (m + 1) := by omega
        rw [e]
        exact hf
      have h3 : ∀ j, j < m → alive (k + 1 + j) = true := by
        intro j hj
        have e : k + 1 + j = k + (j + 1) := by omega
        rw [e]
        exact ha (j + 1) (by omega)
      obtain ⟨ihc, ihm⟩ := ih n (k + 1) (by omega) h2 h3
      constructor
      · simp [pollLoop, hk, List.countP_cons, isCheck, ihc]
      · simp [pollLoop, hk, ihm]

theorem tearDown_countP (alive : ℕ → Bool) :
    (tearDownTrace alive).countP isCheck = (pollLoop alive 100 0).countP isCheck := by
  simp [tearDownTrace, waitForPlotClosed, List.countP_cons, List.countP_append,
    isCheck]

theorem tearDown_mem_logError (alive : ℕ → Bool) (msg : String) :
    QtAction.logError msg ∈ tearDownTrace alive ↔
      QtAction.logError msg ∈ pollLoop alive 100 0 := by
  simp [tearDownTrace, waitForPlotClosed]

theorem tearDown_mem_qWait (alive : ℕ → Bool) (ms : ℕ) :
    QtAction.qWait ms ∈ tearDownTrace alive ↔
      QtAction.qWait ms ∈ pollLoop alive 100 0 := by
  simp [tearDownTrace, waitForPlotClosed]

/-- Claim C9: in the harness teardown the liveness flag is polled at most
100 times; every wait between polls is 10 ms; if the flag reads false at
some check before the budget is exhausted the loop stops right there
(that check is the last one) and no error is logged; if the flag reads
true at all 100 checks the error "Plot is still alive" is logged; and in
every case no exception is raised - the trace always ends with the
superclass teardown. -/
theorem plot_teardown_poll (alive : ℕ → Bool) :
    (tearDownTrace alive).countP isCheck ≤ 100
    ∧ (∀ ms, QtAction.qWait ms ∈ tearDownTrace alive → ms = 10)
    ∧ (∀ m, m < 100 → alive m = false → (∀ j, j < m → alive j = true) →
        (tearDownTrace alive).countP isCheck = m + 1
        ∧ QtAction.logError "Plot is still alive" ∉ tearDownTrace alive)
    ∧ ((∀ j, j < 100 → alive j = true) →
        (tearDownTrace alive).countP isCheck = 100
        ∧ QtAction.logError "Plot is still alive" ∈ tearDownTrace alive)
    ∧ (tearDownTrace alive).getLast? = some QtAction.superTearDown := by
  refine ⟨?_, ?_, ?_, ?_, ?_⟩
  · rw [tearDown_countP]
    exact pollLoop_countP_le alive 100 0
  · intro ms hms
    exact pollLoop_qWait alive 100 0 ms ((tearDown_mem_qWait alive ms).mp hms)
  · intro m hm hf ha
    have hf0 : alive (0 + m) = false := by simpa using hf
    have ha0 : ∀ j, j < m → alive (0 + j) = true := by
      intro j hj
      simpa using ha j hj
    obtain ⟨hc, hmem⟩ := pollLoop_break alive m 100 0 hm hf0 ha0
    refine ⟨by rw [tearDown_countP]; exact hc, ?_⟩
    intro hcon
    exact hmem ((tearDown_mem_logError alive _).mp hcon)
  · intro h
    have h0 : ∀ j, j < 100 → alive (0 + j) = true := by
      intro j hj
      simpa using h j hj
    obtain ⟨hc, hmem⟩ := pollLoop_exhaust alive 100 0 h0
    exact ⟨by rw [tearDown_countP]; exact hc,
      (tearDown_mem_logError alive _).mpr hmem⟩
  · have e : tearDownTrace alive =
        (QtAction.processEvents :: waitForPlotClosed alive) ++
          [QtAction.superTearDown] := by
      simp [tearDownTrace]
    rw [e, List.getLast?_concat]

/-! ## Theorems: the median-filter claim -/

theorem map_getD_range {α : Type} (l : List α) (d : α) :
    (List.range l.length).map (fun i => l.getD i d) = l := by
  induction l with
  | nil => simp
  | cons a t ih =>
      rw [List.length_cons, List.range_succ_eq_map, List.map_cons, List.map_map]
      have h1 : (a :: t).getD 0 d = a := rfl
      have h2 : ((fun i => (a :: t).getD i d) ∘ Nat.succ) =
          fun i => t.getD i d := by
        funext i
        rfl
      rw [h1, h2, ih]

theorem medianOfList_singleton (x : ℤ) : medianOfList [x] = x := by
  simp [medianOfList]

theorem borderClamp_coe_lt (n i : ℕ) (h : i < n) : borderClamp n (i : ℤ) = i := by
  unfold borderClamp
  have h1 : (i : ℤ) ≤ (n : ℤ) - 1 := by omega
  have h2 : (0 : ℤ) ≤ (i : ℤ) := Int.ofNat_nonneg i
  rw [min_eq_left h1, max_eq_right h2]
  exact Int.toNat_natCast i

theorem window_one_one (img : List (List ℤ)) (i j : ℕ) (hi : i < img.length)
    (hj : j < (img.getD i []).length) :
    window img 1 1 i j = [(img.getD i []).getD j 0] := by
  unfold window
  have e1 : (i : ℤ) + ((0 : ℕ) : ℤ) - (((1 : ℕ) / (2 : ℕ) : ℕ) : ℤ) = (i : ℤ) := by
    norm_num
  have e2 : (j : ℤ) + ((0 : ℕ) : ℤ) - (((1 : ℕ) / (2 : ℕ) : ℕ) : ℤ) = (j : ℤ) := by
    norm_num
  have hr1 : List.range 1 = [0] := rfl
  simp only [hr1, List.map_cons, List.map_nil]
  rw [e1, borderClamp_coe_lt img.length i hi, e2,
    borderClamp_coe_lt (img.getD i []).length j hj]
  simp

/-- Claim C10: the 2-D median filter with kernel size (1,1), conditional
flag false and engine "cpp" returns an array element-wise equal to its
input (the median of a single-element window is that element), for every
image - in particular for the canonical fixture image. -/
theorem medfilt2d_identity_kernel (image : List (List ℤ)) :
    medfilt2d image (1, 1) false MedianEngine.cpp = image := by
  show medfiltCore image (1, 1) = image
  unfold medfiltCore
  dsimp only
  conv_rhs => rw [← map_getD_range image ([] : List ℤ)]
  apply List.map_congr_left
  intro i hi
  rw [List.mem_range] at hi
  conv_rhs => rw [← map_getD_range (image.getD i []) (0 : ℤ)]
  apply List.map_congr_left
  intro j hj
  rw [List.mem_range] at hj
  rw [window_one_one image i j hi hj, medianOfList_singleton]
